import Mathlib

/-!
Shallow embedding of the synchronization core of `git-bigstore`
(`src/bigstore/bigstore.py`), together with theorems checking the
natural-language specification against it.

Conventions of the embedding:
* Binary streams (stdin/stdout of the clean/smudge filters, stored objects)
  are `List Nat` of byte values; Python's line iteration over a binary
  stream is `splitLines` (lines end after each `0x0A`, a trailing fragment
  without a newline is a line of its own, an empty stream has no lines).
* Text handled with Python `str` (ledger entry lines, config values,
  `git show` output) is `List Char`.
* Crashing control flow (an uncaught `StopIteration`, `ValueError`,
  `TypeError` or `AttributeError`) is `Option.none`.
* The external cloud backends are abstracted by their contract: an
  existence predicate passed in as a function, and byte transfers recorded
  as events (`Ev`) instead of performed.
* The configured hash function (`hashlib`, an external collaborator) is an
  abstract parameter `H` producing the hex digest bytes.
-/

/-- Byte string of an ASCII string literal, used to build concrete byte
streams for the filter transforms. -/
def strBytes (s : String) : List Nat :=
  s.data.map Char.toNat

/-- Char list of a string literal; Python `str` values are modelled as
`List Char`. -/
def cs (s : String) : List Char :=
  s.data

/-- Python iteration over a binary stream: split a byte stream into lines,
each line keeping its trailing `0x0A`; a final fragment without a newline
is a line; the empty stream yields no lines. -/
def splitLines : List Nat → List (List Nat)
  | [] => []
  | b :: rest =>
    if b = 10 then [10] :: splitLines rest
    else
      match splitLines rest with
      | [] => [[b]]
      | l :: ls => (b :: l) :: ls

/-- The magic first line `b"bigstore\n"` tested by both filter transforms
(`bigstore.py` lines 416 and 444). -/
def magicLine : List Nat :=
  strBytes "bigstore\n"

/-- The local content-addressable object store, keyed by
(hash-algorithm name, hex digest) exactly as `object_filename` shards
paths by those two values (`bigstore.py` lines 143-148). -/
abbrev Store := List ((List Nat × List Nat) × List Nat)

/-- Writing a stored object: `shutil.copy` of the staged temporary file to
`object_filename(hash_function_name, hexdigest)` (`bigstore.py` line 434). -/
def storePut (store : Store) (alg dg content : List Nat) : Store :=
  ((alg, dg), content) :: store

/-- Reading a stored object at `object_filename(alg, dg)`: `some` content
when the path exists, `none` when `open` raises `IOError`. -/
def storeGet : Store → List Nat → List Nat → Option (List Nat)
  | [], _, _ => none
  | ((a, d), v) :: rest, alg, dg =>
    if a = alg ∧ d = dg then some v else storeGet rest alg dg

/-- The clean filter (`filter_clean`, `bigstore.py` lines 413-438).
`hashName` is `default_hash_function_name`, `H` the configured hash's
hexdigest. `next(stdin)` on an empty stream raises `StopIteration`
(`none`). If the first line is the magic marker the input is copied
verbatim; otherwise every line is hashed and written to a staged file,
the object is placed in the store under the digest, and the three pointer
lines are emitted. -/
def filter_clean (hashName : List Nat) (H : List Nat → List Nat)
    (store : Store) (input : List Nat) : Option (List Nat × Store) :=
  match splitLines input with
  | [] => none
  | firstline :: rest =>
    if firstline = magicLine then
      some ((firstline :: rest).flatten, store)
    else
      some (magicLine ++ hashName ++ [10] ++ H ((firstline :: rest).flatten) ++ [10],
        storePut store hashName (H ((firstline :: rest).flatten)) ((firstline :: rest).flatten))

/-- The smudge filter (`filter_smudge`, `bigstore.py` lines 441-464).
If the first line is the magic marker, the next two lines are read
(`StopIteration` when absent, `none`), their trailing character stripped
(`[:-1]`), and the object looked up; a missing object echoes the three
pointer lines, a present object is streamed out. Any other first line is
copied verbatim together with the rest of the input. -/
def filter_smudge (store : Store) (input : List Nat) : Option (List Nat) :=
  match splitLines input with
  | [] => none
  | firstline :: rest =>
    if firstline = magicLine then
      match rest with
      | [] => none
      | nameLine :: rest2 =>
        match rest2 with
        | [] => none
        | digestLine :: _ =>
          match storeGet store nameLine.dropLast digestLine.dropLast with
          | none => some (firstline ++ nameLine ++ digestLine)
          | some content => some ((splitLines content).flatten)
    else
      some ((firstline :: rest).flatten)

/-- Python `str.split(sep)` for a one-character separator, used for
`entry.split('\t')` and `g().show(sha).split('\n')`; the empty string
splits to `[""]`. -/
def splitOnChar (c : Char) : List Char → List (List Char)
  | [] => [[]]
  | a :: rest =>
    if a = c then [] :: splitOnChar c rest
    else
      match splitOnChar c rest with
      | [] => [[a]]
      | l :: ls => (a :: l) :: ls

/-- Unpacking `timestamp, action, backend_name, _ = entry.split('\t')`:
`some` of the four fields when the line has exactly four tab-separated
fields, `none` when the unpacking raises `ValueError`. -/
def parseEntry (e : List Char) :
    Option (List Char × List Char × List Char × List Char) :=
  match splitOnChar '\t' e with
  | [a, b, c, d] => some (a, b, c, d)
  | _ => none

/-- The ledger-entry test of the push loop (`bigstore.py` lines 279-287):
a line parses to four fields, the action is an upload variant, and the
backend name equals the active backend's name. -/
def entryMatches (bn : List Char) (e : List Char) : Bool :=
  match parseEntry e with
  | some (_, a, b, _) =>
    (a == cs "upload" || a == cs "upload-compressed") && b == bn
  | none => false

/-- The action recorded for a rule: `"upload-compressed" if compress else
"upload"` (`bigstore.py` lines 318-321 and 353). -/
def actionName (compress : Bool) : List Char :=
  if compress then cs "upload-compressed" else cs "upload"

/-- Observable side effects of processing one tracked entry: a byte
transfer to the backend (`backend.push`), a byte transfer from the backend
(`backend.pull`), a ledger append (`git notes --ref=bigstore append`), or
staging the downloaded file (`git add`). -/
inductive Ev where
  | up (bname dg : List Char) (compressed : Bool)
  | down (bname dg : List Char) (compressed : Bool)
  | note (action bname : List Char)
  | stage
  deriving DecidableEq

/-- Whether an event is a ledger append. -/
def Ev.isNote : Ev → Bool
  | .note _ _ => true
  | _ => false

/-- Whether an event is a byte transfer to or from a backend. -/
def Ev.isTransfer : Ev → Bool
  | .up _ _ _ => true
  | .down _ _ _ => true
  | _ => false

/-- Processing of one tracked entry by `push` (`bigstore.py` lines
269-326). `entries` are the ledger lines for the object's sha (`[]` when
the notes lookup failed), `bn` the active backend's name, `showOut` the
output of `g().show(sha)`, `bexists` the backend's existence check,
`localPresent` whether the stored object file exists. The `for ... else`
over the entries skips the object entirely when a matching entry exists;
otherwise the pointer record is parsed (a `ValueError` is passed over),
and for a real pointer the bytes are transferred unless the backend
already has them, after which a fresh ledger entry is appended. Opening a
missing local object raises `IOError` (`none`). -/
def pushOne (entries : List (List Char)) (bn : List Char) (compress : Bool)
    (showOut : List Char) (bexists : List Char → Bool)
    (localPresent : Bool) : Option (List Ev) :=
  if entries.any (entryMatches bn) then
    some []
  else
    match splitOnChar '\n' showOut with
    | [firstline, _hashName, dg] =>
      if firstline = cs "bigstore" then
        if bexists dg then
          some [Ev.note (actionName compress) bn]
        else if localPresent then
          some [Ev.up bn dg compress, Ev.note (actionName compress) bn]
        else
          none
      else
        some []
    | _ => some []

/-- `backend_for_name` (`bigstore.py` lines 105-140): the three supported
names construct a backend carrying that name (the concrete clients are
external collaborators, so only the name identity is kept); any other name
returns `None`. -/
def backend_for_name (n : List Char) : Option (List Char) :=
  if n = cs "s3" ∨ n = cs "cloudfiles" ∨ n = cs "gs" then some n else none

/-- The entry loop of `pull` (`bigstore.py` lines 358-385). Each line is
unpacked (`ValueError` is uncaught here, `none`); the first line whose
action is an upload variant is processed and the loop breaks: the pointer
record is read (`ValueError` uncaught, `none`), a locally present object
means nothing to do, otherwise the entry's named backend is resolved
(`None.exists` raises `AttributeError`, `none`) and, when it reports
existence, the bytes are downloaded (decompressed when the action is the
compressed variant) and the file staged. -/
def pullLoop (bexists : List Char → List Char → Bool) (showOut : List Char)
    (localPresent : Bool) : List (List Char) → Option (List Ev)
  | [] => some []
  | e :: rest =>
    match parseEntry e with
    | none => none
    | some (_, action, bname, _) =>
      if action = cs "upload" ∨ action = cs "upload-compressed" then
        match splitOnChar '\n' showOut with
        | [firstline, _hashName, dg] =>
          if firstline = cs "bigstore" then
            if localPresent then
              some []
            else
              match backend_for_name bname with
              | none => none
              | some b =>
                if bexists b dg then
                  some [Ev.down b dg (action == cs "upload-compressed"), Ev.stage]
                else
                  some []
          else
            some []
        | _ => none
      else
        pullLoop bexists showOut localPresent rest

/-- `is_bigstore_file` (`bigstore.py` lines 162-174): read the first
`len('bigstore\n')` characters of the working-tree file and compare;
a file that cannot be opened (`IOError`) is not a bigstore file. -/
def is_bigstore_file (contents : Option (List Char)) : Bool :=
  match contents with
  | none => false
  | some text => text.take 9 == cs "bigstore\n"

/-- The synthesized default ledger entry of `pull` (`bigstore.py` lines
351-355): `'\t'.join(['', action, config('bigstore.backend'), ''])`. -/
def defaultEntry (compress : Bool) (b : List Char) : List Char :=
  '\t' :: (actionName compress ++ '\t' :: (b ++ ['\t']))

/-- Processing of one tracked entry by `pull` (`bigstore.py` lines
342-385). When the notes lookup fails (`notesEntries = none`) and the
working-tree file sniffs as a bigstore pointer, a single default entry
naming `config('bigstore.backend')` is synthesized (an unset config value
is `None`, and `'\t'.join` over it raises `TypeError`, `none`); otherwise
the entries are processed by the entry loop. -/
def pullOne (notesEntries : Option (List (List Char)))
    (fileContents : Option (List Char)) (cfgBackend : Option (List Char))
    (compress : Bool) (showOut : List Char) (localPresent : Bool)
    (bexists : List Char → List Char → Bool) : Option (List Ev) :=
  match notesEntries with
  | some entries => pullLoop bexists showOut localPresent entries
  | none =>
    if is_bigstore_file fileContents then
      match cfgBackend with
      | none => none
      | some b => pullLoop bexists showOut localPresent [defaultEntry compress b]
    else
      pullLoop bexists showOut localPresent []

/-- Per-tracked-entry inputs of a `pull` invocation: the object's ledger
lines, the working-tree file contents, the rule's compress flag, the
`g().show(sha)` output, and local object presence. -/
structure PullArgs where
  notesEntries : Option (List (List Char))
  fileContents : Option (List Char)
  compress : Bool
  showOut : List Char
  localPresent : Bool

/-- The tracked-entry loop of `pull` (`bigstore.py` lines 342-385) over
all tracked entries, concatenating the emitted events; a crash on one
entry aborts the run. -/
def pull (cfgBackend : Option (List Char))
    (bexists : List Char → List Char → Bool) : List PullArgs → Option (List Ev)
  | [] => some []
  | a :: rest =>
    match pullOne a.notesEntries a.fileContents cfgBackend a.compress
        a.showOut a.localPresent bexists with
    | none => none
    | some evs => (pull cfgBackend bexists rest).map (fun more => evs ++ more)

/-- `default_backend` (`bigstore.py` lines 94-102): resolve
`config('bigstore.backend')` through `backend_for_name`; an unsupported
(or unset) name writes a one-line diagnostic and calls `sys.exit(0)`.
Termination is `Except.error (exitStatus, diagnostic)`. -/
def default_backend (cfg : Option (List Char)) :
    Except (Nat × String) (List Char) :=
  match cfg.bind backend_for_name with
  | some b => Except.ok b
  | none =>
    Except.error
      (0, "error: s3, gs, and cloudfiles are currently the only supported backends")

/-- `assert_initialized` (`bigstore.py` lines 596-611): when the
`filter.bigstore.clean` git config is not the expected command, write a
one-line diagnostic (depending on whether a `.git` directory exists) and
call `sys.exit(1)`. -/
def assert_initialized (cleanFilterCfg : Option (List Char))
    (gitDirPresent : Bool) : Except (Nat × String) Unit :=
  if cleanFilterCfg = some (cs "git-bigstore filter-clean") then
    Except.ok ()
  else
    Except.error
      (1, if gitDirPresent then "fatal: You must run `git bigstore init` first.\n"
          else "fatal: Not a git repository.\n")

/-- Modelled from the spec: the `cat_sort_uniq` notes-merge strategy that
`pull_metadata` invokes (`bigstore.py` line 255) is implemented by git
itself, not by this repository; the spec defines the merge of two entry
logs as union of lines, sorted, duplicates removed. -/
def cat_sort_uniq (a b : List String) : List String :=
  ((a ++ b).insertionSort (fun x y => x ≤ y)).dedup

/-! ### Concrete evaluations of the embedded operations -/

example : splitLines (strBytes "ab\ncd") = [strBytes "ab\n", strBytes "cd"] := by decide
example : splitLines (strBytes "") = [] := by decide
example : splitLines (strBytes "\n") = [[10]] := by decide
example :
    filter_clean (strBytes "sha1") (fun _ => strBytes "ab") [] (strBytes "hello\n")
      = some (strBytes "bigstore\nsha1\nab\n",
          [((strBytes "sha1", strBytes "ab"), strBytes "hello\n")]) := by decide
example :
    filter_smudge [((strBytes "sha1", strBytes "ab"), strBytes "hello\n")]
        (strBytes "bigstore\nsha1\nab\n")
      = some (strBytes "hello\n") := by decide
example :
    filter_smudge [] (strBytes "bigstore\nsha1\nab\n")
      = some (strBytes "bigstore\nsha1\nab\n") := by decide
example : parseEntry (cs "1\tupload\ts3\tA <a>")
      = some (cs "1", cs "upload", cs "s3", cs "A <a>") := by decide
example : parseEntry (cs "") = none := by decide
example : parseEntry (defaultEntry false (cs "s3"))
      = some ([], cs "upload", cs "s3", []) := by decide
example : pushOne [cs "1\tupload\ts3\tA <a>"] (cs "s3") false
      (cs "bigstore\nsha1\nabc") (fun _ => false) true = some [] := by decide
example : pushOne [] (cs "s3") false (cs "bigstore\nsha1\nabc")
      (fun _ => true) false = some [Ev.note (cs "upload") (cs "s3")] := by decide
example : pushOne [] (cs "s3") true (cs "bigstore\nsha1\nabc")
      (fun _ => false) true
      = some [Ev.up (cs "s3") (cs "abc") true,
          Ev.note (cs "upload-compressed") (cs "s3")] := by decide
example : pullOne (some [cs "1\tupload\tgs\tA <a>"]) none none false
      (cs "bigstore\nsha1\nabc") false (fun _ _ => true)
      = some [Ev.down (cs "gs") (cs "abc") false, Ev.stage] := by decide
example : pullOne none (some (cs "bigstore\nxx")) (some (cs "s3")) false
      (cs "bigstore\nsha1\nabc") false (fun _ _ => true)
      = some [Ev.down (cs "s3") (cs "abc") false, Ev.stage] := by decide
example : pullOne none (some (cs "other")) (some (cs "s3")) false
      (cs "bigstore\nsha1\nabc") false (fun _ _ => true) = some [] := by decide
example : default_backend (some (cs "foo"))
      = Except.error (0, "error: s3, gs, and cloudfiles are currently the only supported backends") := by rfl

/-! ### Lemmas about the line splitting of byte streams -/

theorem flatten_splitLines : ∀ l : List Nat, (splitLines l).flatten = l
  | [] => rfl
  | b :: rest => by
    by_cases hb : b = 10
    · subst hb
      simp [splitLines, flatten_splitLines rest]
    · have ih := flatten_splitLines rest
      rcases hr : splitLines rest with _ | ⟨l, ls⟩
      · rw [hr] at ih
        simp only [List.flatten_nil] at ih
        simp [splitLines, hb, hr, ← ih]
      · rw [hr] at ih
        simp only [List.flatten_cons] at ih
        simp [splitLines, hb, hr, ih]

theorem splitLines_line_append :
    ∀ (l : List Nat), (10:Nat) ∉ l →
      ∀ r, splitLines (l ++ 10 :: r) = (l ++ [10]) :: splitLines r
  | [], _, r => by simp [splitLines]
  | a :: l, h, r => by
    have ha : a ≠ 10 := fun e => h (e ▸ List.mem_cons_self a l)
    have h' : (10:Nat) ∉ l := fun hm => h (List.mem_cons_of_mem _ hm)
    simp only [List.cons_append, splitLines, ha, if_false, ite_false, List.append_eq]
    rw [splitLines_line_append l h' r]

theorem splitLines_magic_append (r : List Nat) :
    splitLines (magicLine ++ r) = magicLine :: splitLines r := by
  have e : magicLine = strBytes "bigstore" ++ [10] := by rfl
  rw [e, List.append_assoc]
  have e2 : (([10] : List Nat) ++ r) = 10 :: r := rfl
  rw [e2, splitLines_line_append _ (by decide) r]

theorem splitLines_pointer {n d : List Nat} (hn : (10:Nat) ∉ n)
    (hd : (10:Nat) ∉ d) :
    splitLines (magicLine ++ n ++ [10] ++ d ++ [10])
      = [magicLine, n ++ [10], d ++ [10]] := by
  have e1 : magicLine ++ n ++ [10] ++ d ++ [10]
      = magicLine ++ (n ++ 10 :: (d ++ 10 :: [])) := by simp
  rw [e1, splitLines_magic_append, splitLines_line_append n hn,
    splitLines_line_append d hd]
  rfl

theorem dropLast_append_ten (l : List Nat) : (l ++ [(10:Nat)]).dropLast = l := by
  simp

theorem storeGet_storePut (store : Store) (alg dg content : List Nat) :
    storeGet (storePut store alg dg content) alg dg = some content := by
  simp [storePut, storeGet]

theorem filter_clean_magic_prefixed (hashName : List Nat)
    (H : List Nat → List Nat) (store : Store) (X : List Nat) :
    filter_clean hashName H store (magicLine ++ X)
      = some (magicLine ++ X, store) := by
  have hsp := splitLines_magic_append X
  simp [filter_clean, hsp, flatten_splitLines]

/-! ### Claim theorems for the pointer codec -/

/-- C4: for every input stream whose first line equals the magic marker
line, the clean transform copies the input verbatim to output (and leaves
the object store untouched), and consequently encoding is idempotent:
running `filter_clean` on the output (and store) of `filter_clean` gives
the same result as running it once, for every content. -/
theorem clean_passthrough_idempotent :
    (∀ (hashName : List Nat) (H : List Nat → List Nat) (store : Store)
        (input firstline : List Nat) (rest : List (List Nat)),
      splitLines input = firstline :: rest → firstline = magicLine →
      filter_clean hashName H store input = some (input, store)) ∧
    (∀ (hashName : List Nat) (H : List Nat → List Nat) (store : Store)
        (input : List Nat),
      (filter_clean hashName H store input).bind
          (fun r => filter_clean hashName H r.2 r.1)
        = filter_clean hashName H store input) := by
  constructor
  · intro hashName H store input firstline rest hsplit hmagic
    subst hmagic
    have hj : (magicLine :: rest).flatten = input := by
      rw [← hsplit, flatten_splitLines]
    simp only [List.flatten_cons] at hj
    simp [filter_clean, hsplit, hj]
  · intro hashName H store input
    rcases hsplit : splitLines input with _ | ⟨firstline, rest⟩
    · simp [filter_clean, hsplit]
    · have hj : (firstline :: rest).flatten = input := by
        rw [← hsplit, flatten_splitLines]
      by_cases hmagic : firstline = magicLine
      · subst hmagic
        have hj2 : magicLine ++ rest.flatten = input := by
          simpa using hj
        simp [filter_clean, hsplit, hj2]
      · have h1 : filter_clean hashName H store input
            = some (magicLine ++ hashName ++ [10] ++ H input ++ [10],
                storePut store hashName (H input) input) := by
          simp only [filter_clean, hsplit, if_neg hmagic, hj]
        rw [h1]
        show filter_clean hashName H (storePut store hashName (H input) input)
            (magicLine ++ hashName ++ [10] ++ H input ++ [10])
          = some (magicLine ++ hashName ++ [10] ++ H input ++ [10],
              storePut store hashName (H input) input)
        have hassoc : magicLine ++ hashName ++ [10] ++ H input ++ [10]
            = magicLine ++ (hashName ++ [10] ++ H input ++ [10]) := by
          simp
        rw [hassoc]
        exact filter_clean_magic_prefixed hashName H
          (storePut store hashName (H input) input)
          (hashName ++ [10] ++ H input ++ [10])

/-- C4 witness: a concrete already-pointer stream is passed through
verbatim with the store unchanged. -/
theorem clean_passthrough_idempotent_witness :
    splitLines (strBytes "bigstore\nsha1\nab\n")
        = strBytes "bigstore\n" :: [strBytes "sha1\n", strBytes "ab\n"] ∧
    filter_clean (strBytes "sha1") (fun _ => strBytes "ab") []
        (strBytes "bigstore\nsha1\nab\n")
      = some (strBytes "bigstore\nsha1\nab\n", []) :=
  ⟨by decide,
    clean_passthrough_idempotent.1 (strBytes "sha1") (fun _ => strBytes "ab") []
      (strBytes "bigstore\nsha1\nab\n") (strBytes "bigstore\n")
      [strBytes "sha1\n", strBytes "ab\n"] (by decide) (by decide)⟩

/-- C2 counterexample: the round trip fails exactly as stated on two of
the claim's own inputs. On empty content the clean transform raises
`StopIteration` at `next(stdin)` (no output at all); on content whose
first line is the magic marker but which is not a three-line pointer
record, clean passes it through verbatim and smudge then truncates it to
three lines, so the original bytes are not reproduced even though encode
wrote no object (the presence premise holds vacuously). -/
theorem clean_smudge_roundtrip_cex :
    (filter_clean (strBytes "sha1") (fun _ => strBytes "ab") [] []).bind
        (fun r => filter_smudge r.2 r.1) ≠ some [] ∧
    (filter_clean (strBytes "sha1") (fun _ => strBytes "ab") []
          (strBytes "bigstore\nA\nB\nC\n")).bind
        (fun r => filter_smudge r.2 r.1)
      ≠ some (strBytes "bigstore\nA\nB\nC\n") := by
  constructor
  · decide
  · decide

/-- C2 (amended): for every nonempty byte content whose first line is not
the magic marker line (and whose digest and configured hash name contain
no newline byte, as real hex digests and algorithm names do), applying the
clean transform and then the smudge transform to its output and resulting
store reproduces the original content exactly. -/
theorem clean_smudge_roundtrip (hashName : List Nat)
    (H : List Nat → List Nat) (store : Store) (input firstline : List Nat)
    (rest : List (List Nat))
    (hsplit : splitLines input = firstline :: rest)
    (hmagic : firstline ≠ magicLine)
    (hname : (10:Nat) ∉ hashName) (hH : (10:Nat) ∉ H input) :
    (filter_clean hashName H store input).bind
        (fun r => filter_smudge r.2 r.1) = some input := by
  have hj : (firstline :: rest).flatten = input := by
    rw [← hsplit, flatten_splitLines]
  have h1 : filter_clean hashName H store input
      = some (magicLine ++ hashName ++ [10] ++ H input ++ [10],
          storePut store hashName (H input) input) := by
    simp only [filter_clean, hsplit, if_neg hmagic, hj]
  rw [h1]
  show filter_smudge (storePut store hashName (H input) input)
      (magicLine ++ hashName ++ [10] ++ H input ++ [10]) = some input
  have hptr := splitLines_pointer hname hH
  simp only [filter_smudge]
  rw [hptr]
  simp [dropLast_append_ten, storeGet_storePut, flatten_splitLines]

/-- C2 witness: one-line content round trips through a concrete hash. -/
theorem clean_smudge_roundtrip_witness :
    splitLines (strBytes "hello\n") = strBytes "hello\n" :: [] ∧
    strBytes "hello\n" ≠ magicLine ∧
    (filter_clean (strBytes "sha1") (fun _ => strBytes "ab") []
          (strBytes "hello\n")).bind
        (fun r => filter_smudge r.2 r.1) = some (strBytes "hello\n") :=
  ⟨by decide, by decide,
    clean_smudge_roundtrip (strBytes "sha1") (fun _ => strBytes "ab") []
      (strBytes "hello\n") (strBytes "hello\n") [] (by decide) (by decide)
      (by decide) (by decide)⟩

/-- C7: for every input stream made of the magic marker line followed by
an algorithm line and a digest line naming an object absent from the local
object store, the smudge transform outputs the three pointer lines
unchanged and does not fail. -/
theorem smudge_missing_object_nonfatal (store : Store) (n d : List Nat)
    (hn : (10:Nat) ∉ n) (hd : (10:Nat) ∉ d)
    (habsent : storeGet store n d = none) :
    filter_smudge store (magicLine ++ n ++ [10] ++ d ++ [10])
      = some (magicLine ++ n ++ [10] ++ d ++ [10]) := by
  have hptr := splitLines_pointer hn hd
  simp only [filter_smudge]
  rw [hptr]
  simp [dropLast_append_ten, habsent, List.append_assoc]

/-! ### Lemmas about character splitting and the push/pull loops -/

theorem splitOnChar_cons_sep (c : Char) (r : List Char) :
    splitOnChar c (c :: r) = [] :: splitOnChar c r := by
  simp [splitOnChar]

theorem splitOnChar_append_sep :
    ∀ (l : List Char), c ∉ l →
      ∀ r, splitOnChar c (l ++ c :: r) = l :: splitOnChar c r
  | [], _, r => by simp [splitOnChar]
  | a :: l, h, r => by
    have ha : a ≠ c := fun e => h (e ▸ List.mem_cons_self a l)
    have h' : c ∉ l := fun hm => h (List.mem_cons_of_mem _ hm)
    simp only [List.cons_append, splitOnChar, ha, if_false, ite_false,
      List.append_eq]
    rw [splitOnChar_append_sep l h' r]

theorem actionName_tab_free (compress : Bool) : '\t' ∉ actionName compress := by
  cases compress <;> decide

theorem parseEntry_defaultEntry {b : List Char} (hb : '\t' ∉ b)
    (compress : Bool) :
    parseEntry (defaultEntry compress b)
      = some ([], actionName compress, b, []) := by
  have h1 : splitOnChar '\t' (defaultEntry compress b)
      = [[], actionName compress, b, []] := by
    unfold defaultEntry
    rw [splitOnChar_cons_sep,
      splitOnChar_append_sep (actionName compress) (actionName_tab_free compress),
      splitOnChar_append_sep b hb]
    rfl
  simp [parseEntry, h1]

theorem pullLoop_skips_nonupload (bexists : List Char → List Char → Bool)
    (showOut : List Char) (localPresent : Bool) :
    ∀ (pre rest : List (List Char)),
      (∀ x ∈ pre, ∃ t2 a2 b2 u2, parseEntry x = some (t2, a2, b2, u2) ∧
          ¬(a2 = cs "upload" ∨ a2 = cs "upload-compressed")) →
      pullLoop bexists showOut localPresent (pre ++ rest)
        = pullLoop bexists showOut localPresent rest
  | [], rest, _ => by simp
  | x :: pre, rest, hpre => by
    obtain ⟨t2, a2, b2, u2, hx, hna⟩ := hpre x (List.mem_cons_self x pre)
    have ih := pullLoop_skips_nonupload bexists showOut localPresent pre rest
      (fun y hy => hpre y (List.mem_cons_of_mem _ hy))
    simp only [List.cons_append, pullLoop, hx]
    rw [if_neg hna]
    exact ih

theorem pullLoop_processes_upload (bexists : List Char → List Char → Bool)
    (showOut : List Char) (e : List Char) (post : List (List Char))
    (t a bn u hf dg : List Char)
    (he : parseEntry e = some (t, a, bn, u))
    (ha : a = cs "upload" ∨ a = cs "upload-compressed")
    (hshow : splitOnChar '\n' showOut = [cs "bigstore", hf, dg])
    (hb : backend_for_name bn = some bn)
    (hex : bexists bn dg = true) :
    pullLoop bexists showOut false (e :: post)
      = some [Ev.down bn dg (a == cs "upload-compressed"), Ev.stage] := by
  simp only [pullLoop, he, hshow]
  rw [if_pos ha]
  simp [hb, hex]

theorem pullLoop_no_note (bexists : List Char → List Char → Bool)
    (showOut : List Char) (localPresent : Bool) :
    ∀ entries : List (List Char),
      ((pullLoop bexists showOut localPresent entries).getD []).countP
        Ev.isNote = 0
  | [] => by simp [pullLoop]
  | e :: rest => by
    have ih := pullLoop_no_note bexists showOut localPresent rest
    simp only [pullLoop]
    repeat' split
    all_goals
      simp_all [List.countP_cons, List.countP_nil, Ev.isNote]

theorem pullOne_no_note (notesEntries : Option (List (List Char)))
    (fileContents : Option (List Char)) (cfgBackend : Option (List Char))
    (compress : Bool) (showOut : List Char) (localPresent : Bool)
    (bexists : List Char → List Char → Bool) :
    ((pullOne notesEntries fileContents cfgBackend compress showOut
        localPresent bexists).getD []).countP Ev.isNote = 0 := by
  unfold pullOne
  cases notesEntries with
  | some entries => exact pullLoop_no_note bexists showOut localPresent entries
  | none =>
    by_cases hb : is_bigstore_file fileContents = true
    · cases cfgBackend with
      | none => simp [hb]
      | some b =>
        simp only [hb, if_true]
        exact pullLoop_no_note bexists showOut localPresent _
    · simp only [hb, if_false]
      exact pullLoop_no_note bexists showOut localPresent []

theorem pull_no_note_aux (cfgBackend : Option (List Char))
    (bexists : List Char → List Char → Bool) :
    ∀ args : List PullArgs,
      ((pull cfgBackend bexists args).getD []).countP Ev.isNote = 0
  | [] => by simp [pull]
  | a :: rest => by
    have ih := pull_no_note_aux cfgBackend bexists rest
    have h1 := pullOne_no_note a.notesEntries a.fileContents cfgBackend
      a.compress a.showOut a.localPresent bexists
    simp only [pull]
    cases hp : pullOne a.notesEntries a.fileContents cfgBackend a.compress
        a.showOut a.localPresent bexists with
    | none => simp
    | some evs =>
      rw [hp] at h1
      simp only [Option.getD_some] at h1
      cases hr : pull cfgBackend bexists rest with
      | none => simp
      | some more =>
        rw [hr] at ih
        simp only [Option.getD_some] at ih
        simp [List.countP_append, h1, ih]

/-! ### Claim theorems for push, pull, merge and error handling -/

/-- C1 counterexample: a tracked entry whose object already carries an
upload ledger entry for the active backend is skipped entirely by push —
the `for ... else` in `push` only appends inside the `else`, which a
matching entry's `break` bypasses. At this concrete input push emits no
events at all (and does not crash), so no new ledger entry is appended,
contrary to the claim. -/
theorem push_matched_entry_appends_nothing :
    pushOne [cs "100.0\tupload\ts3\tAlice <alice@example.com>"] (cs "s3")
        false (cs "bigstore\nsha1\nabc") (fun _ => false) true = some [] ∧
    (([] : List Ev).countP Ev.isNote = 0) := by
  exact ⟨by decide, by decide⟩

/-- C1 (amended): for every tracked entry processed by push whose object
already has a ledger entry with action upload or upload-compressed and
backendName equal to the active backend's name, push performs zero backend
byte-transfer calls for that object and appends no new ledger entry for it
(the object is skipped entirely). -/
theorem push_matched_entry_skips_entirely (entries : List (List Char))
    (bn : List Char) (compress : Bool) (showOut : List Char)
    (bexists : List Char → Bool) (localPresent : Bool)
    (hmatch : entries.any (entryMatches bn) = true) :
    pushOne entries bn compress showOut bexists localPresent = some [] := by
  simp [pushOne, hmatch]

/-- C1 witness: the amended skip behavior at a concrete ledger. -/
theorem push_matched_entry_skips_entirely_witness :
    [cs "99.5\tupload-compressed\tgs\tBob <bob@example.com>"].any
        (entryMatches (cs "gs")) = true ∧
    pushOne [cs "99.5\tupload-compressed\tgs\tBob <bob@example.com>"]
        (cs "gs") true (cs "bigstore\nsha1\nffff") (fun _ => true) false
      = some [] :=
  ⟨by decide,
    push_matched_entry_skips_entirely
      [cs "99.5\tupload-compressed\tgs\tBob <bob@example.com>"] (cs "gs")
      true (cs "bigstore\nsha1\nffff") (fun _ => true) false (by decide)⟩

/-- C5: a tracked entry with no matching upload ledger entry for the
active backend, whose digest the backend already reports as existing, is
pushed without any byte transfer, and a single fresh ledger entry with
action upload (upload-compressed when the rule is compressed) for the
active backend is still appended. -/
theorem push_remote_exists_appends_without_transfer
    (entries : List (List Char)) (bn hf dg : List Char) (compress : Bool)
    (showOut : List Char) (bexists : List Char → Bool) (localPresent : Bool)
    (hnone : entries.any (entryMatches bn) = false)
    (hshow : splitOnChar '\n' showOut = [cs "bigstore", hf, dg])
    (hex : bexists dg = true) :
    pushOne entries bn compress showOut bexists localPresent
      = some [Ev.note (actionName compress) bn] := by
  simp [pushOne, hnone, hshow, hex]

/-- C5 witness: concrete push with an empty ledger and a backend that
already has the object. -/
theorem push_remote_exists_appends_without_transfer_witness :
    ([] : List (List Char)).any (entryMatches (cs "s3")) = false ∧
    splitOnChar '\n' (cs "bigstore\nsha1\nabc")
      = [cs "bigstore", cs "sha1", cs "abc"] ∧
    pushOne [] (cs "s3") false (cs "bigstore\nsha1\nabc") (fun _ => true)
        true = some [Ev.note (actionName false) (cs "s3")] :=
  ⟨by decide, by decide,
    push_remote_exists_appends_without_transfer [] (cs "s3") (cs "sha1")
      (cs "abc") false (cs "bigstore\nsha1\nabc") (fun _ => true) true
      (by decide) (by decide) (by decide)⟩

/-- C9: the tracked-entry loop of pull never appends a ledger entry, for
any configuration, backend behavior and any sequence of tracked entries;
the only ledger writes of a pull are the metadata merge before the loop
(`pull_metadata`, line 335) and the notes publish after it (line 389),
both outside this loop. -/
theorem pull_appends_no_ledger_entries (cfgBackend : Option (List Char))
    (bexists : List Char → List Char → Bool) (args : List PullArgs) :
    ((pull cfgBackend bexists args).getD []).countP Ev.isNote = 0 :=
  pull_no_note_aux cfgBackend bexists args

/-- C8 (code bug): `default_backend` writes its one-line diagnostic for an
unsupported configured backend name but then calls `sys.exit(0)`, so the
process terminates with exit status 0, not the non-zero status the claim
requires; the other two fatal conditions (`assert_initialized`) do exit
with status 1. -/
theorem default_backend_unsupported_exit_status :
    default_backend (some (cs "foo"))
      = Except.error
          (0, "error: s3, gs, and cloudfiles are currently the only supported backends") ∧
    assert_initialized none true
      = Except.error (1, "fatal: You must run `git bigstore init` first.\n") ∧
    assert_initialized none false
      = Except.error (1, "fatal: Not a git repository.\n") :=
  ⟨rfl, rfl, rfl⟩

/-- C6: during pull, a tracked entry whose object has no ledger entries at
all is handled by sniffing the working-tree file: when the file begins
with the magic marker line, pull synthesizes the single default candidate
entry — parsing to action upload (upload-compressed when the rule is
compressed) and to the configured default backend's name — and proceeds
with exactly that one entry; when the file does not begin with the magic
marker, the entry list is empty and nothing is transferred (no events). -/
theorem pull_no_notes_default_entry (fileContents : Option (List Char))
    (b : List Char) (cfgBackend : Option (List Char)) (compress : Bool)
    (showOut : List Char) (localPresent : Bool)
    (bexists : List Char → List Char → Bool) :
    ('\t' ∉ b →
      parseEntry (defaultEntry compress b)
        = some ([], actionName compress, b, []) ∧
      (is_bigstore_file fileContents = true →
        pullOne none fileContents (some b) compress showOut localPresent
            bexists
          = pullLoop bexists showOut localPresent [defaultEntry compress b])) ∧
    (is_bigstore_file fileContents = false →
      pullOne none fileContents cfgBackend compress showOut localPresent
          bexists = some []) := by
  refine ⟨fun hb => ⟨parseEntry_defaultEntry hb compress, fun hbig => ?_⟩,
    fun hnot => ?_⟩
  · simp [pullOne, hbig]
  · simp [pullOne, hnot, pullLoop]

/-- C6 witness: a concrete no-ledger entry whose working-tree file starts
with the magic marker proceeds with the synthesized default entry and
downloads through the configured default backend. -/
theorem pull_no_notes_default_entry_witness :
    '\t' ∉ cs "s3" ∧
    is_bigstore_file (some (cs "bigstore\nxx")) = true ∧
    parseEntry (defaultEntry false (cs "s3"))
      = some ([], actionName false, cs "s3", []) ∧
    pullOne none (some (cs "bigstore\nxx")) (some (cs "s3")) false
        (cs "bigstore\nsha1\nabc") false (fun _ _ => true)
      = pullLoop (fun _ _ => true) (cs "bigstore\nsha1\nabc") false
          [defaultEntry false (cs "s3")] :=
  ⟨by decide, by decide,
    ((pull_no_notes_default_entry (some (cs "bigstore\nxx")) (cs "s3")
        (some (cs "s3")) false (cs "bigstore\nsha1\nabc") false
        (fun _ _ => true)).1 (by decide)).1,
    ((pull_no_notes_default_entry (some (cs "bigstore\nxx")) (cs "s3")
        (some (cs "s3")) false (cs "bigstore\nsha1\nabc") false
        (fun _ _ => true)).1 (by decide)).2 (by decide)⟩

/-- C10: during pull, the download candidate is the first entry in file
order whose action is an upload variant — parseable entries before it with
other actions are skipped regardless of their backendName, entries after
it are never examined (the result does not depend on `post`), and the
download goes through `backend_for_name` of the backend named in that
entry, while the configured default backend (`cfgBackend`) is unused. -/
theorem pull_first_upload_entry_wins (pre post : List (List Char))
    (e t a bn u hf dg : List Char) (fileContents : Option (List Char))
    (cfgBackend : Option (List Char)) (compress : Bool) (showOut : List Char)
    (bexists : List Char → List Char → Bool)
    (hpre : ∀ x ∈ pre, ∃ t2 a2 b2 u2, parseEntry x = some (t2, a2, b2, u2) ∧
        ¬(a2 = cs "upload" ∨ a2 = cs "upload-compressed"))
    (he : parseEntry e = some (t, a, bn, u))
    (ha : a = cs "upload" ∨ a = cs "upload-compressed")
    (hshow : splitOnChar '\n' showOut = [cs "bigstore", hf, dg])
    (hb : backend_for_name bn = some bn)
    (hex : bexists bn dg = true) :
    pullOne (some (pre ++ e :: post)) fileContents cfgBackend compress
        showOut false bexists
      = some [Ev.down bn dg (a == cs "upload-compressed"), Ev.stage] := by
  show pullLoop bexists showOut false (pre ++ e :: post) = _
  rw [pullLoop_skips_nonupload bexists showOut false pre (e :: post) hpre]
  exact pullLoop_processes_upload bexists showOut e post t a bn u hf dg he
    ha hshow hb hex

/-- C10 witness: with a non-upload entry first, an upload entry naming a
non-default backend second, and a malformed line after it, pull downloads
through the named backend and never reaches the later line. -/
theorem pull_first_upload_entry_wins_witness :
    parseEntry (cs "2\tupload\tgs\tB <b>")
      = some (cs "2", cs "upload", cs "gs", cs "B <b>") ∧
    backend_for_name (cs "gs") = some (cs "gs") ∧
    pullOne (some [cs "1\tdownload\ts3\tA <a>", cs "2\tupload\tgs\tB <b>",
        cs "junk"]) none none false (cs "bigstore\nsha1\nabc") false
        (fun _ _ => true)
      = some [Ev.down (cs "gs") (cs "abc") false, Ev.stage] :=
  ⟨by decide, by decide,
    pull_first_upload_entry_wins [cs "1\tdownload\ts3\tA <a>"] [cs "junk"]
      (cs "2\tupload\tgs\tB <b>") (cs "2") (cs "upload") (cs "gs")
      (cs "B <b>") (cs "sha1") (cs "abc") none none false
      (cs "bigstore\nsha1\nabc") (fun _ _ => true)
      (by
        intro x hx
        have hx1 : x = cs "1\tdownload\ts3\tA <a>" := by simpa using hx
        subst hx1
        exact ⟨cs "1", cs "download", cs "s3", cs "A <a>", by decide,
          by decide⟩)
      (by decide) (Or.inl rfl) (by decide) (by decide) (by decide)⟩

/-! ### Lemmas for the ledger merge -/

theorem mem_cat_sort_uniq (x : String) (a b : List String) :
    x ∈ cat_sort_uniq a b ↔ x ∈ a ∨ x ∈ b := by
  unfold cat_sort_uniq
  rw [List.mem_dedup, (List.perm_insertionSort _ _).mem_iff]
  exact List.mem_append

theorem sorted_cat_sort_uniq (a b : List String) :
    List.Sorted (fun x y => x ≤ y) (cat_sort_uniq a b) :=
  List.Pairwise.sublist (List.dedup_sublist _)
    (List.sorted_insertionSort _ _)

theorem nodup_cat_sort_uniq (a b : List String) :
    (cat_sort_uniq a b).Nodup :=
  List.nodup_dedup _

theorem cat_sort_uniq_eq_of_mem_iff {a b c d : List String}
    (h : ∀ x, x ∈ a ∨ x ∈ b ↔ (x ∈ c ∨ x ∈ d)) :
    cat_sort_uniq a b = cat_sort_uniq c d := by
  apply List.eq_of_perm_of_sorted _ (sorted_cat_sort_uniq a b)
    (sorted_cat_sort_uniq c d)
  rw [List.perm_ext_iff_of_nodup (nodup_cat_sort_uniq a b)
    (nodup_cat_sort_uniq c d)]
  intro x
  rw [mem_cat_sort_uniq, mem_cat_sort_uniq]
  exact h x

/-- C3: the cat-sort-uniq ledger merge is associative, commutative and
idempotent, with full list equality (hence also equality as sets of
lines): nesting either way equals the flat three-way merge, argument order
is irrelevant, and re-merging already-merged logs changes nothing. -/
theorem cat_sort_uniq_merge_laws (a b c : List String) :
    cat_sort_uniq a (cat_sort_uniq b c)
        = cat_sort_uniq (cat_sort_uniq a b) c ∧
    cat_sort_uniq a (cat_sort_uniq b c) = cat_sort_uniq (a ++ b) c ∧
    cat_sort_uniq a b = cat_sort_uniq b a ∧
    cat_sort_uniq (cat_sort_uniq a b) (cat_sort_uniq a b)
        = cat_sort_uniq a b ∧
    cat_sort_uniq (cat_sort_uniq a b) b = cat_sort_uniq a b := by
  refine ⟨?_, ?_, ?_, ?_, ?_⟩ <;>
    · apply cat_sort_uniq_eq_of_mem_iff
      intro x
      try simp only [mem_cat_sort_uniq, List.mem_append]
      tauto

/-- C7 witness: a pointer to an object missing from a concrete store is
echoed unchanged. -/
theorem smudge_missing_object_nonfatal_witness :
    storeGet [((strBytes "sha1", strBytes "zz"), strBytes "other\n")]
        (strBytes "sha1") (strBytes "ab") = none ∧
    filter_smudge [((strBytes "sha1", strBytes "zz"), strBytes "other\n")]
        (magicLine ++ strBytes "sha1" ++ [10] ++ strBytes "ab" ++ [10])
      = some (magicLine ++ strBytes "sha1" ++ [10] ++ strBytes "ab" ++ [10]) :=
  ⟨by decide,
    smudge_missing_object_nonfatal
      [((strBytes "sha1", strBytes "zz"), strBytes "other\n")]
      (strBytes "sha1") (strBytes "ab") (by decide) (by decide) (by decide)⟩
